import Mathlib

/-!
Verification of the query layer of `src/app.py` (a Streamlit dashboard over a
MongoDB `sample_mflix` database) against its natural-language specification.

The shallow embedding models:
  * documents of the `movies` and `comments` collections, with the schema
    heterogeneity the spec demands (absent fields, `null`, wrong scalar type);
  * the MongoDB match / unwind / group / sort / limit stages exactly as the
    pipelines in `app.py` issue them (type-bracketed comparisons, `$in` over
    arrays, `$ne null`, `$min`/`$max` ignoring nulls with BSON cross-type
    ordering, `$unwind` dropping null/missing and passing scalars through);
  * the pandas post-processing in `app.py` (`to_df`, `pd.to_numeric` with
    `errors="coerce"`, `dropna`), and Python `int(...)` conversion;
  * the Streamlit `st.cache_data` result cache, modelled from the spec's
    Result Cache contract (its implementation is library code, not in src/).

Simplifications that do not affect any claim: `imdb.rating` is carried as one
optional scalar field `rating` on the document (a document whose `imdb`
subdocument exists but lacks `rating` is modelled as `rating = none`); rational
numbers stand for BSON doubles/ints; BSON types not reachable by the queries
(ObjectId, regex, binary, booleans, nested arrays) are omitted.
-/

/-- A BSON scalar value as the queries can observe it: `null`, a number
(BSON int/double, modelled as `ℚ`), a string, or a datetime (epoch
milliseconds). -/
inductive Scalar where
  | null : Scalar
  | num : ℚ → Scalar
  | str : String → Scalar
  | dt : ℤ → Scalar
deriving DecidableEq, Repr

/-- The value of a `genres` field: BSON `null`, a bare scalar string, or an
array of scalars (well-formed documents hold arrays of strings, but the store
enforces no schema). A missing field is `Option.none` at the document level. -/
inductive GVal where
  | gnull : GVal
  | gstr : String → GVal
  | garr : List Scalar → GVal
deriving DecidableEq, Repr

/-- A document of the `movies` collection, restricted to the fields the
queries in `app.py` touch. `none` means the field is absent from the
document; `rating` is the value at the path `imdb.rating`. -/
structure MovieDoc where
  title : Option Scalar
  year : Option Scalar
  genres : Option GVal
  rating : Option Scalar
  countries : Option Scalar
deriving DecidableEq, Repr

/-- A document of the `comments` collection, restricted to the `date` field
used by `comments_over_time`. -/
structure CommentDoc where
  date : Option Scalar
deriving DecidableEq, Repr

/-! ## BSON cross-type ordering

MongoDB compares values of different BSON types by a fixed type rank
(Null < Numbers < Strings < Dates for the types modelled here) and values of
the same type by their natural order.  This order drives `$sort` and the
`$min`/`$max` accumulators. -/

/-- Lexicographic order on strings as lists of characters (by code point),
the order MongoDB and Lean both use for strings. -/
def strLeB : List Char → List Char → Bool
  | [], _ => true
  | _ :: _, [] => false
  | a :: as, b :: bs => if a = b then strLeB as bs else decide (a < b)

/-- BSON type rank of a scalar (null < numbers < strings < dates). -/
def Scalar.rank : Scalar → ℕ
  | .null => 0
  | .num _ => 1
  | .str _ => 2
  | .dt _ => 3

/-- BSON `≤` on scalars: by type rank, then by the in-type order. -/
def Scalar.leB : Scalar → Scalar → Bool
  | .null, _ => true
  | _, .null => false
  | .num x, .num y => decide (x ≤ y)
  | .num _, _ => true
  | _, .num _ => false
  | .str x, .str y => strLeB x.toList y.toList
  | .str _, _ => true
  | _, .str _ => false
  | .dt x, .dt y => decide (x ≤ y)

theorem strLeB_total (a b : List Char) : strLeB a b = true ∨ strLeB b a = true := by
  induction a generalizing b with
  | nil => left; rfl
  | cons x xs ih =>
    cases b with
    | nil => right; rfl
    | cons y ys =>
      by_cases hxy : x = y
      · subst hxy
        rcases ih ys with h | h
        · left; simpa [strLeB] using h
        · right; simpa [strLeB] using h
      · have hyx : y ≠ x := fun h => hxy h.symm
        rcases lt_trichotomy x y with h | h | h
        · left; simp [strLeB, hxy, h]
        · exact absurd h hxy
        · right; simp [strLeB, hyx, h]

theorem strLeB_trans {a b c : List Char} (h1 : strLeB a b = true)
    (h2 : strLeB b c = true) : strLeB a c = true := by
  induction a generalizing b c with
  | nil => rfl
  | cons x xs ih =>
    cases b with
    | nil => simp [strLeB] at h1
    | cons y ys =>
      cases c with
      | nil => simp [strLeB] at h2
      | cons z zs =>
        by_cases hxy : x = y <;> by_cases hyz : y = z
        · subst hxy; subst hyz
          simp only [strLeB, if_pos rfl] at h1 h2 ⊢
          exact ih h1 h2
        · subst hxy
          simp only [strLeB, if_pos rfl] at h1
          simpa [strLeB, hyz] using h2
        · subst hyz
          simpa [strLeB, hxy] using h1
        · simp only [strLeB, if_neg hxy] at h1
          simp only [strLeB, if_neg hyz] at h2
          have hlt : x < z := lt_trans (of_decide_eq_true h1) (of_decide_eq_true h2)
          have hxz : x ≠ z := ne_of_lt hlt
          simp [strLeB, hxz, hlt]

theorem strLeB_antisymm {a b : List Char} (h1 : strLeB a b = true)
    (h2 : strLeB b a = true) : a = b := by
  induction a generalizing b with
  | nil =>
    cases b with
    | nil => rfl
    | cons y ys => simp [strLeB] at h2
  | cons x xs ih =>
    cases b with
    | nil => simp [strLeB] at h1
    | cons y ys =>
      by_cases hxy : x = y
      · subst hxy
        simp only [strLeB, if_pos rfl] at h1 h2
        exact congrArg (x :: ·) (ih h1 h2)
      · have hyx : y ≠ x := fun h => hxy h.symm
        simp only [strLeB, if_neg hxy] at h1
        simp only [strLeB, if_neg hyx] at h2
        exact absurd (lt_trans (of_decide_eq_true h1) (of_decide_eq_true h2))
          (lt_irrefl _)

theorem Scalar.leB_total (a b : Scalar) : a.leB b = true ∨ b.leB a = true := by
  cases a <;> cases b <;> simp [Scalar.leB]
  · exact le_total _ _
  · exact strLeB_total _ _
  · exact le_total _ _

theorem Scalar.leB_trans {a b c : Scalar} (h1 : a.leB b = true)
    (h2 : b.leB c = true) : a.leB c = true := by
  cases a <;> cases b <;> cases c <;> simp [Scalar.leB] at h1 h2 ⊢
  · exact le_trans h1 h2
  · exact strLeB_trans h1 h2
  · exact le_trans h1 h2

theorem Scalar.leB_antisymm {a b : Scalar} (h1 : a.leB b = true)
    (h2 : b.leB a = true) : a = b := by
  cases a <;> cases b <;> simp [Scalar.leB] at h1 h2 ⊢
  · exact le_antisymm h1 h2
  · have h := strLeB_antisymm h1 h2
    exact String.ext (by simpa [String.toList] using h)
  · exact le_antisymm h1 h2

/-! ## Sorting

MongoDB's `$sort` stage is modelled as an insertion sort by a total,
transitive boolean comparator (ties may land in any order, as in MongoDB,
which guarantees only that the output is sorted). -/

/-- Insert `x` into `l` before the first element `y` with `le x y`. -/
def insertLe {α : Type} (le : α → α → Bool) (x : α) : List α → List α
  | [] => [x]
  | y :: ys => if le x y then x :: y :: ys else y :: insertLe le x ys

/-- Insertion sort by the boolean comparator `le`. -/
def isortLe {α : Type} (le : α → α → Bool) (l : List α) : List α :=
  l.foldr (insertLe le) []

theorem insertLe_perm {α : Type} (le : α → α → Bool) (x : α) (l : List α) :
    (insertLe le x l).Perm (x :: l) := by
  induction l with
  | nil => exact List.Perm.refl _
  | cons y ys ih =>
    simp only [insertLe]
    by_cases h : le x y = true
    · rw [if_pos h]
    · rw [if_neg h]
      exact (ih.cons y).trans (List.Perm.swap x y ys)

theorem isortLe_perm {α : Type} (le : α → α → Bool) (l : List α) :
    (isortLe le l).Perm l := by
  induction l with
  | nil => exact List.Perm.refl _
  | cons x xs ih =>
    exact (insertLe_perm le x (isortLe le xs)).trans (ih.cons x)

theorem mem_isortLe {α : Type} {le : α → α → Bool} {l : List α} {a : α} :
    a ∈ isortLe le l ↔ a ∈ l :=
  (isortLe_perm le l).mem_iff

theorem insertLe_pairwise {α : Type} {le : α → α → Bool}
    (htot : ∀ a b, le a b = true ∨ le b a = true)
    (htrans : ∀ a b c, le a b = true → le b c = true → le a c = true)
    {l : List α} (hl : l.Pairwise (fun a b => le a b = true)) (x : α) :
    (insertLe le x l).Pairwise (fun a b => le a b = true) := by
  induction l with
  | nil => simp [insertLe]
  | cons y ys ih =>
    rcases hl with _ | ⟨hy, hys⟩
    by_cases h : le x y = true
    · simp only [insertLe, if_pos h]
      exact List.Pairwise.cons
        (fun b hb => by
          rcases hb with _ | hb
          · exact h
          · exact htrans x y _ h (hy _ (by assumption)))
        (List.Pairwise.cons hy hys)
    · have hyx : le y x = true := (htot x y).resolve_left h
      simp only [insertLe, if_neg h]
      refine List.Pairwise.cons (fun b hb => ?_) (ih hys)
      rcases List.mem_cons.mp ((insertLe_perm le x ys).mem_iff.mp hb) with hb | hb
      · subst hb; exact hyx
      · exact hy b hb

theorem isortLe_pairwise {α : Type} {le : α → α → Bool}
    (htot : ∀ a b, le a b = true ∨ le b a = true)
    (htrans : ∀ a b c, le a b = true → le b c = true → le a c = true)
    (l : List α) : (isortLe le l).Pairwise (fun a b => le a b = true) := by
  induction l with
  | nil => simp [isortLe]
  | cons x xs ih => exact insertLe_pairwise htot htrans ih x

/-! ## Python / pandas numeric helpers -/

/-- Strip leading and trailing whitespace from a character list (Python
`str.strip()` as `int(...)` applies it). -/
def stripWs (cs : List Char) : List Char :=
  ((cs.dropWhile (·.isWhitespace)).reverse.dropWhile (·.isWhitespace)).reverse

/-- Split an optional leading sign: `(negative?, remaining characters)`. -/
def signSplit : List Char → Bool × List Char
  | [] => (false, [])
  | c :: cs =>
    if c = '-' then (true, cs) else if c = '+' then (false, cs) else (false, c :: cs)

/-- The numeric value of a digit list (48 is the code point of the zero
digit). Garbage-free only when the list is all digits. -/
def natVal (cs : List Char) : ℕ :=
  cs.foldl (fun n c => 10 * n + (c.toNat - 48)) 0

/-- A non-empty all-digit list parsed to a natural, `none` otherwise. -/
def digitsToNat (cs : List Char) : Option ℕ :=
  if cs ≠ [] ∧ cs.all (·.isDigit) then some (natVal cs) else none

/-- Python `int(...)` truncates a float toward zero. -/
def pyTrunc (q : ℚ) : ℤ := if 0 ≤ q then ⌊q⌋ else ⌈q⌉

/-- Python `int(s)` on a string: strips whitespace, allows one sign, then
requires a non-empty run of decimal digits; raises (`none`) otherwise. -/
def pyIntOfString (s : String) : Option ℤ :=
  let p := signSplit (stripWs s.toList)
  (digitsToNat p.2).map fun n => if p.1 then -(n : ℤ) else (n : ℤ)

/-- Python `int(v)` on a BSON value as `years_min_max` applies it: truncate a
number toward zero, parse a decimal string, raise (`none`) on anything else. -/
def pyInt : Scalar → Option ℤ
  | .num q => some (pyTrunc q)
  | .str s => pyIntOfString s
  | _ => none

/-- An unsigned decimal literal, optionally with a fractional part
(`"1995"`, `"7.5"`, `".5"`, `"3."`). -/
def parseDecimal (cs : List Char) : Option ℚ :=
  let ip := cs.takeWhile (· ≠ '.')
  match cs.dropWhile (· ≠ '.') with
  | [] => (digitsToNat ip).map fun n => (n : ℚ)
  | _ :: fp =>
    if ip.all (·.isDigit) ∧ fp.all (·.isDigit) ∧ ¬(ip = [] ∧ fp = []) then
      some ((natVal ip : ℚ) + (natVal fp : ℚ) / (10 : ℚ) ^ fp.length)
    else none

/-- One cell under `pd.to_numeric(..., errors="coerce")`: numbers pass
through, decimal strings parse, everything else (null, malformed strings,
stringified dates) coerces to NaN — `none`. Scientific notation and infinity
literals are not modelled; no claim reaches those branches. -/
def toNumeric : Scalar → Option ℚ
  | .num q => some q
  | .str s =>
    let p := signSplit (stripWs s.toList)
    (parseDecimal p.2).map fun q => if p.1 then -q else q
  | _ => none

/-! ## MongoDB match operators as `app.py` uses them -/

/-- `{field: {"$gte": q}}` with a numeric bound: by BSON type bracketing only
a numeric field value satisfies it (a missing, null, string or date field
does not). -/
def numGeB (v : Option Scalar) (q : ℚ) : Bool :=
  match v with
  | some (.num x) => decide (q ≤ x)
  | _ => false

/-- `{field: {"$lte": q}}` with a numeric bound, type-bracketed as above. -/
def numLeB (v : Option Scalar) (q : ℚ) : Bool :=
  match v with
  | some (.num x) => decide (x ≤ q)
  | _ => false

/-- `{field: {"$type": "number"}}`. -/
def numTypeB (v : Option Scalar) : Bool :=
  match v with
  | some (.num _) => true
  | _ => false

/-- `{genres: {"$in": sel}}` for a selection of genre strings: a scalar
string field matches when it is one of `sel`; an array field matches when
some element is a string of `sel`. -/
def genresInB (g : Option GVal) (sel : List String) : Bool :=
  match g with
  | some (.gstr s) => sel.contains s
  | some (.garr l) =>
    l.any fun v =>
      match v with
      | .str s => sel.contains s
      | _ => false
  | _ => false

/-- `{genres: {"$ne": null}}`: `{genres: null}` matches a missing field, a
null field and an array containing null, and `$ne` excludes exactly those. -/
def genresNeNullB (g : Option GVal) : Bool :=
  match g with
  | none => false
  | some .gnull => false
  | some (.gstr _) => true
  | some (.garr l) => ! l.contains Scalar.null

/-- The filter of `movies_filtered` and `agg_avg_rating_by_year`
(src/app.py lines 106-113 and 128-133): `year` in `[year_min, year_max]`,
`imdb.rating` numeric and `≥ min_r`, and — only when the selection is
non-empty, mirroring `if genres:` — `{genres: {"$in": genres}}`. -/
def moviesMatch (year_min year_max : ℤ) (genres : List String) (min_r : ℚ)
    (d : MovieDoc) : Bool :=
  numGeB d.year (year_min : ℚ) && numLeB d.year (year_max : ℚ) &&
    (numTypeB d.rating && numGeB d.rating min_r) &&
    (genres.isEmpty || genresInB d.genres genres)

/-- `.sort([("imdb.rating", -1), ("year", -1)])` (src/app.py line 117):
descending BSON order on `imdb.rating`, ties broken by descending `year`;
a missing sort field sorts as null. -/
def movieSortLeB (a b : MovieDoc) : Bool :=
  let ra := a.rating.getD .null
  let rb := b.rating.getD .null
  if ra = rb then Scalar.leB (b.year.getD .null) (a.year.getD .null)
  else Scalar.leB rb ra

theorem movieSortLeB_total (a b : MovieDoc) :
    movieSortLeB a b = true ∨ movieSortLeB b a = true := by
  unfold movieSortLeB
  by_cases h : a.rating.getD .null = b.rating.getD .null
  · rw [if_pos h, if_pos h.symm]
    exact Scalar.leB_total _ _
  · rw [if_neg h, if_neg (fun hh => h hh.symm)]
    exact Scalar.leB_total _ _

theorem movieSortLeB_trans (a b c : MovieDoc) (h1 : movieSortLeB a b = true)
    (h2 : movieSortLeB b c = true) : movieSortLeB a c = true := by
  unfold movieSortLeB at h1 h2 ⊢
  by_cases hab : a.rating.getD .null = b.rating.getD .null <;>
    by_cases hbc : b.rating.getD .null = c.rating.getD .null
  · rw [if_pos hab] at h1
    rw [if_pos hbc] at h2
    rw [if_pos (hab.trans hbc)]
    exact Scalar.leB_trans h2 h1
  · rw [if_pos hab] at h1
    rw [if_neg hbc] at h2
    rw [hab, if_neg hbc]
    exact h2
  · rw [if_neg hab] at h1
    rw [if_pos hbc] at h2
    rw [if_neg (hbc ▸ hab)]
    exact hbc ▸ h1
  · rw [if_neg hab] at h1
    rw [if_neg hbc] at h2
    have hac : a.rating.getD .null ≠ c.rating.getD .null := by
      intro h
      exact hbc (Scalar.leB_antisymm (h ▸ h1) h2)
    rw [if_neg hac]
    exact Scalar.leB_trans h2 h1

/-! ## The Query Layer -/

/-- A row of `to_df`'s output for the `movies_filtered` cursor: the document
restricted by the projection `{"title": 1, "year": 1, "genres": 1,
"imdb.rating": 1, "countries": 1}` with `_id` dropped. -/
structure MovieRow where
  title : Option Scalar
  year : Option Scalar
  genres : Option GVal
  rating : Option Scalar
  countries : Option Scalar
deriving DecidableEq, Repr

/-- The projection and `_id` drop applied by `movies_filtered` + `to_df`. -/
def projectRow (d : MovieDoc) : MovieRow :=
  ⟨d.title, d.year, d.genres, d.rating, d.countries⟩

/-- A `movies_filtered` row after the numeric coercion of lines 120-123:
the `year` and rating cells are numbers or NaN (`none`). -/
structure MovieRowC where
  title : Option Scalar
  year : Option ℚ
  genres : Option GVal
  rating : Option ℚ
  countries : Option Scalar
deriving DecidableEq, Repr

/-- `pd.to_numeric(..., errors="coerce")` on the `year` and rating cells
(src/app.py lines 120-123); a missing cell is already NaN. -/
def coerceRow (r : MovieRow) : MovieRowC :=
  ⟨r.title, r.year.bind toNumeric, r.genres, r.rating.bind toNumeric, r.countries⟩

/-- `movies_filtered` (src/app.py lines 104-124): find with the filter and
projection, sort by `imdb.rating` then `year` descending, limit 1000,
`to_df`, then numeric coercion of the `year` and rating columns. -/
def movies_filtered (movies : List MovieDoc) (year_min year_max : ℤ)
    (genres : List String) (min_r : ℚ) : List MovieRowC :=
  let matched := movies.filter (moviesMatch year_min year_max genres min_r)
  let limited := (isortLe movieSortLeB matched).take 1000
  (limited.map projectRow).map coerceRow

/-- `$unwind "$genres"`: an array field yields one output document per
element, a scalar field passes through as a single output, and a null or
missing field drops the document. -/
def unwindGenres (d : MovieDoc) : List Scalar :=
  match d.genres with
  | some (.garr l) => l
  | some (.gstr s) => [.str s]
  | _ => []

/-- `list_genres` (src/app.py lines 59-67): unwind `genres`, group by value,
project the key to `genre`, sort ascending; yields the distinct genre
values. No transformation (in particular no case-folding) is applied. -/
def list_genres (movies : List MovieDoc) : List Scalar :=
  isortLe Scalar.leB (movies.flatMap unwindGenres).dedup

/-- The `$min` accumulator: null (and missing) values are ignored, and the
result is null when no other value exists; values of different BSON types
compare by the cross-type order. -/
def bsonMinOf (l : List Scalar) : Scalar :=
  match l.filter (· ≠ Scalar.null) with
  | [] => .null
  | x :: xs => xs.foldl (fun acc v => if Scalar.leB v acc then v else acc) x

/-- The `$max` accumulator, dual to `bsonMinOf`. -/
def bsonMaxOf (l : List Scalar) : Scalar :=
  match l.filter (· ≠ Scalar.null) with
  | [] => .null
  | x :: xs => xs.foldl (fun acc v => if Scalar.leB acc v then v else acc) x

/-- `years_min_max` (src/app.py lines 69-81): aggregate
`$match {year: {$exists: true}}` then `$group {_id: null, minY: {$min:
"$year"}, maxY: {$max: "$year"}}`; `(2000, 2025)` when the pipeline yields
no document, when min or max is null, or when `int(...)` raises. Note the
match stage requires only that `year` exists — not that it is numeric. -/
def yearVals (movies : List MovieDoc) : List Scalar :=
  (movies.filter fun d => d.year.isSome).filterMap (·.year)

/-- The body of `years_min_max` over the `year` values the match stage kept
(see the contract on `yearVals` above). -/
def years_min_max (movies : List MovieDoc) : ℤ × ℤ :=
  if (movies.filter fun d => d.year.isSome).isEmpty then (2000, 2025)
  else
    let mn := bsonMinOf (yearVals movies)
    let mx := bsonMaxOf (yearVals movies)
    if mn = .null ∨ mx = .null then (2000, 2025)
    else
      match pyInt mn, pyInt mx with
      | some a, some b => (a, b)
      | _, _ => (2000, 2025)

/-- The sidebar's guard around `years_min_max` (src/app.py lines 88-90):
substitute the default range again when the bounds come back inverted. -/
def year_bounds_used (movies : List MovieDoc) : ℤ × ℤ :=
  let p := years_min_max movies
  if p.1 > p.2 then (2000, 2025) else p

/-- `$avg "$imdb.rating"` over one group: the mean of the numeric values,
null when the group has none. -/
def avgOf (l : List Scalar) : Scalar :=
  let ns := l.filterMap fun v =>
    match v with
    | .num q => some q
    | _ => none
  if ns.isEmpty then .null else .num (ns.sum / ns.length)

/-- The grouped, key-sorted (pre-coercion) rows of `agg_avg_rating_by_year`
(src/app.py lines 134-138): group key `_id = $year` (null for a missing
field), the `$avg` of `imdb.rating`, and the `$sum: 1` count, with keys
sorted ascending by the BSON order. -/
def avgPreRows (movies : List MovieDoc) (year_min year_max : ℤ)
    (genres : List String) (min_r : ℚ) : List (Scalar × Scalar × ℕ) :=
  let matched := movies.filter (moviesMatch year_min year_max genres min_r)
  let keys := isortLe Scalar.leB ((matched.map fun d => d.year.getD .null).dedup)
  keys.map fun k =>
    let grp := matched.filter fun d => d.year.getD .null = k
    (k, avgOf (grp.map fun d => d.rating.getD .null), grp.length)

/-- The rename/coerce/dropna tail of `agg_avg_rating_by_year` (src/app.py
lines 140-146): `_id` becomes `year`, all three columns are coerced numeric,
and a row whose `year` or `avgRating` fails the coercion is dropped. -/
def coerceAvgRow (r : Scalar × Scalar × ℕ) : Option (ℚ × ℚ × ℚ) :=
  match toNumeric r.1, toNumeric r.2.1 with
  | some y, some a => some (y, a, (r.2.2 : ℚ))
  | _, _ => none

/-- `agg_avg_rating_by_year` (src/app.py lines 126-147). -/
def agg_avg_rating_by_year (movies : List MovieDoc) (year_min year_max : ℤ)
    (genres : List String) (min_r : ℚ) : List (ℚ × ℚ × ℚ) :=
  (avgPreRows movies year_min year_max genres min_r).filterMap coerceAvgRow

/-- The `$match` of `agg_movies_by_genre` (src/app.py lines 152-156): year
range, numeric rating `≥ min_r`, and `genres` not null. -/
def genreCountMatch (year_min year_max : ℤ) (min_r : ℚ) (d : MovieDoc) : Bool :=
  numGeB d.year (year_min : ℚ) && numLeB d.year (year_max : ℚ) &&
    (numTypeB d.rating && numGeB d.rating min_r) && genresNeNullB d.genres

/-- The exploded (document, genre) occurrences of `agg_movies_by_genre`: one
entry per `$unwind` output of each matching document. -/
def explodedGenres (movies : List MovieDoc) (year_min year_max : ℤ)
    (min_r : ℚ) : List Scalar :=
  (movies.filter (genreCountMatch year_min year_max min_r)).flatMap unwindGenres

/-- The comparator of `$sort {count: -1}`. -/
def countDescLeB (a b : Scalar × ℕ) : Bool := decide (b.2 ≤ a.2)

/-- `agg_movies_by_genre` (src/app.py lines 149-166): match, unwind `genres`,
group by genre value with `$sum: 1`, sort by count descending, rename
`_id → genre`, coerce `count` to float. -/
def agg_movies_by_genre (movies : List MovieDoc) (year_min year_max : ℤ)
    (min_r : ℚ) : List (Scalar × ℚ) :=
  let ex := explodedGenres movies year_min year_max min_r
  let rows := ex.dedup.map fun g => (g, ex.count g)
  (isortLe countDescLeB rows).map fun r => (r.1, (r.2 : ℚ))

/-- `$dateTrunc {unit: "day"}` on epoch milliseconds: round down to the
start of the UTC day. -/
def dayTrunc (t : ℤ) : ℤ := 86400000 * Int.fdiv t 86400000

/-- `comments_over_time` (src/app.py lines 168-190): project `date`, keep
documents whose `date` has BSON type date, group by the day-truncated date
with `$sum: 1`, sort ascending by day; `comments` is coerced to float. -/
def comments_over_time (comments : List CommentDoc) : List (ℤ × ℚ) :=
  let ds := comments.filterMap fun c =>
    match c.date with
    | some (.dt t) => some (dayTrunc t)
    | _ => none
  let keys := isortLe (fun a b : ℤ => decide (a ≤ b)) ds.dedup
  keys.map fun k => (k, (ds.count k : ℚ))

/-- The KPI block (src/app.py lines 201-204): the three displayed metrics —
`int(len(movies_df))` labelled "Movies (filtered)", `int(len(genre_df))`
labelled "Genres w/ matches", and `0` when `comments_df` is empty else
`int(comments_df["comments"].sum())` labelled "Comments (all time)". -/
def kpi_metrics (movies_df : List MovieRowC) (genre_df : List (Scalar × ℚ))
    (comments_df : List (ℤ × ℚ)) : List (String × ℤ) :=
  [("Movies (filtered)", (movies_df.length : ℤ)),
   ("Genres w/ matches", (genre_df.length : ℤ)),
   ("Comments (all time)",
     if comments_df.isEmpty then 0
     else pyTrunc ((comments_df.map fun r => r.2).sum))]

/-- The query call sites of src/app.py lines 192-196 with the driver's
possible failure made explicit: each call fetches from its collection, and a
raised query error propagates — no try/except surrounds these lines, so a
failing aggregation aborts the whole run. -/
def dashboard_tables (moviesFetch : Except String (List MovieDoc))
    (commentsFetch : Except String (List CommentDoc)) (year_min year_max : ℤ)
    (genres : List String) (min_r : ℚ) :
    Except String
      (List MovieRowC × List (ℚ × ℚ × ℚ) × List (Scalar × ℚ) × List (ℤ × ℚ)) := do
  let m1 ← moviesFetch
  let movies_df := movies_filtered m1 year_min year_max genres min_r
  let m2 ← moviesFetch
  let avg_year_df := agg_avg_rating_by_year m2 year_min year_max genres min_r
  let m3 ← moviesFetch
  let genre_df := agg_movies_by_genre m3 year_min year_max min_r
  let c ← commentsFetch
  let comments_df := comments_over_time c
  pure (movies_df, avg_year_df, genre_df, comments_df)

/-- The pandas key set of one `movies_filtered` result row: the keys the
returned document actually carries (the nested `imdb` subdocument surfaces
as a single `imdb` column in `pd.DataFrame`). -/
def movieRowKeys (r : MovieRow) : List String :=
  (if r.title.isSome then ["title"] else []) ++
    (if r.year.isSome then ["year"] else []) ++
    (if r.genres.isSome then ["genres"] else []) ++
    (if r.rating.isSome then ["imdb"] else []) ++
    (if r.countries.isSome then ["countries"] else [])

/-- The column set of `to_df`'s DataFrame (src/app.py lines 46-57): the
union of the keys present in the rows; `pd.DataFrame()` — no columns at
all — when the cursor returned no rows. -/
def dfCols (rows : List MovieRow) : List String :=
  (rows.flatMap movieRowKeys).dedup

/-- The columns of the DataFrame `movies_filtered` returns (the numeric
coercion of lines 120-123 alters no column set). -/
def movies_filtered_cols (movies : List MovieDoc) (year_min year_max : ℤ)
    (genres : List String) (min_r : ℚ) : List String :=
  dfCols (((isortLe movieSortLeB
    (movies.filter (moviesMatch year_min year_max genres min_r))).take 1000).map
      projectRow)

/-! ## The Result Cache

`st.cache_data(ttl=60)` wraps every query; its implementation is Streamlit
library code, not part of src/app.py. -/

/-- A cache state: entries `(key, value, createdAt)`, at most one per key. -/
def CacheState (κ α : Type) : Type := List (κ × α × ℕ)

/-- Modelled from the spec: the Result Cache contract of §4.3 (the
`st.cache_data` implementation is library code outside src/): `get` returns
the stored table on a key hit within `ttl` without recomputation; on a miss
or expiry it calls `compute`, stores the result with the current timestamp
and returns it. The third component counts the underlying store requests
this call triggered (0 or 1). -/
def cache_get {κ α : Type} [DecidableEq κ] (ttl now : ℕ) (k : κ)
    (compute : Unit → α) (s : CacheState κ α) : α × CacheState κ α × ℕ :=
  match s.find? (fun e => e.1 = k) with
  | some e =>
    if now - e.2.2 ≤ ttl then (e.2.1, s, 0)
    else
      let v := compute ()
      (v, (k, v, now) :: s.filter (fun e2 => e2.1 ≠ k), 1)
  | none =>
    let v := compute ()
    (v, (k, v, now) :: s.filter (fun e2 => e2.1 ≠ k), 1)

/-- The genre strings a `genres` field carries (used to state "the row has at
least one genre in the selection"). -/
def genreStrs : Option GVal → List String
  | some (.gstr s) => [s]
  | some (.garr l) =>
    l.filterMap fun v =>
      match v with
      | .str s => some s
      | _ => none
  | _ => []

/-- The numeric `year` values of the collection (the documents the spec says
`yearBounds` should aggregate over). -/
def numYears (movies : List MovieDoc) : List ℚ :=
  movies.filterMap fun d =>
    match d.year with
    | some (.num q) => some q
    | _ => none

/-- The spec's reading of `yearBounds` (§4.2: "single-row `{min, max}` over
documents where `year` is numeric; if no such document exists … a default
range (e.g. 2000–2025)"), stated for comparison with `years_min_max`:
min/max over the numeric year values only, truncated to int, defaulting to
`(2000, 2025)` when no document has a numeric year. -/
def years_min_max_specVersion (movies : List MovieDoc) : ℤ × ℤ :=
  match numYears movies with
  | [] => (2000, 2025)
  | x :: xs => (pyTrunc (xs.foldl min x), pyTrunc (xs.foldl max x))

/-! ## Theorems -/

theorem numGeB_elim {v : Option Scalar} {q : ℚ} (h : numGeB v q = true) :
    ∃ x : ℚ, v = some (.num x) ∧ q ≤ x := by
  match v with
  | none => simp [numGeB] at h
  | some .null => simp [numGeB] at h
  | some (.num x) => exact ⟨x, rfl, of_decide_eq_true h⟩
  | some (.str _) => simp [numGeB] at h
  | some (.dt _) => simp [numGeB] at h

theorem numLeB_num {x q : ℚ} (h : numLeB (some (.num x)) q = true) : x ≤ q :=
  of_decide_eq_true h

theorem genresInB_elim {g : Option GVal} {sel : List String}
    (h : genresInB g sel = true) : ∃ s ∈ genreStrs g, s ∈ sel := by
  match g with
  | none => simp [genresInB] at h
  | some .gnull => simp [genresInB] at h
  | some (.gstr s) =>
    refine ⟨s, by simp [genreStrs], ?_⟩
    simpa [genresInB] using h
  | some (.garr l) =>
    simp only [genresInB, List.any_eq_true] at h
    obtain ⟨v, hv, hs⟩ := h
    match v with
    | .null => simp at hs
    | .num _ => simp at hs
    | .dt _ => simp at hs
    | .str s =>
      refine ⟨s, ?_, by simpa using hs⟩
      simp only [genreStrs, List.mem_filterMap]
      exact ⟨.str s, hv, rfl⟩

theorem moviesMatch_elim {year_min year_max : ℤ} {genres : List String}
    {min_r : ℚ} {d : MovieDoc}
    (h : moviesMatch year_min year_max genres min_r d = true) :
    (∃ y : ℚ, d.year = some (.num y) ∧ (year_min : ℚ) ≤ y ∧ y ≤ (year_max : ℚ)) ∧
      (∃ q : ℚ, d.rating = some (.num q) ∧ min_r ≤ q) ∧
      (genres ≠ [] → genresInB d.genres genres = true) := by
  unfold moviesMatch at h
  simp only [Bool.and_eq_true, Bool.or_eq_true] at h
  obtain ⟨⟨⟨hge, hle⟩, _, hrat⟩, hg⟩ := h
  obtain ⟨y, hy, hy1⟩ := numGeB_elim hge
  have hy2 : y ≤ (year_max : ℚ) := numLeB_num (hy ▸ hle)
  obtain ⟨q, hq, hq1⟩ := numGeB_elim hrat
  refine ⟨⟨y, hy, hy1, hy2⟩, ⟨q, hq, hq1⟩, fun hne => ?_⟩
  rcases hg with hg | hg
  · exact absurd (List.isEmpty_iff.mp hg) hne
  · exact hg

theorem mem_movies_filtered {movies : List MovieDoc} {year_min year_max : ℤ}
    {genres : List String} {min_r : ℚ} {r : MovieRowC}
    (h : r ∈ movies_filtered movies year_min year_max genres min_r) :
    ∃ d ∈ movies, moviesMatch year_min year_max genres min_r d = true ∧
      r = coerceRow (projectRow d) := by
  unfold movies_filtered at h
  simp only [List.map_map, List.mem_map, Function.comp] at h
  obtain ⟨d, hd, hr⟩ := h
  have hd2 : d ∈ isortLe movieSortLeB
      (movies.filter (moviesMatch year_min year_max genres min_r)) :=
    (List.take_sublist _ _).subset hd
  have hd3 := mem_isortLe.mp hd2
  rw [List.mem_filter] at hd3
  exact ⟨d, hd3.1, hd3.2, hr.symm⟩

/-- C1: for all valid Filter Parameters, `movies_filtered` returns at most
1000 rows; every row has a numeric rating `≥ min_r` and a numeric year
within `[year_min, year_max]`; when the genre selection is non-empty every
row carries at least one selected genre; and the rows are sorted by rating
descending, ties by year descending. -/
theorem movies_filtered_spec (movies : List MovieDoc) (year_min year_max : ℤ)
    (genres : List String) (min_r : ℚ) (hv : year_min ≤ year_max)
    (hr0 : 0 ≤ min_r) (hr10 : min_r ≤ 10) :
    (movies_filtered movies year_min year_max genres min_r).length ≤ 1000 ∧
      (∀ r ∈ movies_filtered movies year_min year_max genres min_r,
        (∃ q : ℚ, r.rating = some q ∧ min_r ≤ q) ∧
          (∃ y : ℚ, r.year = some y ∧ (year_min : ℚ) ≤ y ∧ y ≤ (year_max : ℚ)) ∧
          (genres ≠ [] → ∃ s ∈ genreStrs r.genres, s ∈ genres)) ∧
      (movies_filtered movies year_min year_max genres min_r).Pairwise
        (fun a b => ∀ qa qb : ℚ, a.rating = some qa → b.rating = some qb →
          qb ≤ qa ∧ (qa = qb → ∀ ya yb : ℚ, a.year = some ya → b.year = some yb →
            yb ≤ ya)) := by
  refine ⟨?_, ?_, ?_⟩
  · unfold movies_filtered
    simp only [List.length_map]
    exact List.length_take_le _ _
  · intro r hr
    obtain ⟨d, _, hm, hrd⟩ := mem_movies_filtered hr
    obtain ⟨⟨y, hy, hy1, hy2⟩, ⟨q, hq, hq1⟩, hg⟩ := moviesMatch_elim hm
    subst hrd
    refine ⟨⟨q, ?_, hq1⟩, ⟨y, ?_, hy1, hy2⟩, fun hne => ?_⟩
    · simp [coerceRow, projectRow, hq, toNumeric]
    · simp [coerceRow, projectRow, hy, toNumeric]
    · have := genresInB_elim (hg hne)
      simpa [coerceRow, projectRow] using this
  · unfold movies_filtered
    simp only [List.map_map]
    rw [List.pairwise_map]
    have hsorted : (isortLe movieSortLeB
        (movies.filter (moviesMatch year_min year_max genres min_r))).Pairwise
        (fun a b => movieSortLeB a b = true) :=
      isortLe_pairwise movieSortLeB_total movieSortLeB_trans _
    have htake := hsorted.sublist (List.take_sublist 1000 _)
    refine List.Pairwise.imp_of_mem ?_ htake
    intro a b ha hb hab
    have hma := (List.mem_filter.mp (mem_isortLe.mp
      ((List.take_sublist _ _).subset ha))).2
    have hmb := (List.mem_filter.mp (mem_isortLe.mp
      ((List.take_sublist _ _).subset hb))).2
    obtain ⟨⟨ya, hya, _, _⟩, ⟨qa, hqa, _⟩, _⟩ := moviesMatch_elim hma
    obtain ⟨⟨yb, hyb, _, _⟩, ⟨qb, hqb, _⟩, _⟩ := moviesMatch_elim hmb
    intro qa2 qb2 hqa2 hqb2
    have hqa2' : qa2 = qa := by
      simp [Function.comp, coerceRow, projectRow, hqa, toNumeric] at hqa2
      exact hqa2.symm
    have hqb2' : qb2 = qb := by
      simp [Function.comp, coerceRow, projectRow, hqb, toNumeric] at hqb2
      exact hqb2.symm
    rw [hqa2', hqb2']
    unfold movieSortLeB at hab
    rw [hqa, hqb] at hab
    simp only [Option.getD_some] at hab
    by_cases heq : qa = qb
    · refine ⟨le_of_eq heq.symm, fun _ => ?_⟩
      intro ya2 yb2 hya2 hyb2
      have hya2' : ya2 = ya := by
        simp [Function.comp, coerceRow, projectRow, hya, toNumeric] at hya2
        exact hya2.symm
      have hyb2' : yb2 = yb := by
        simp [Function.comp, coerceRow, projectRow, hyb, toNumeric] at hyb2
        exact hyb2.symm
      rw [hya2', hyb2']
      rw [if_pos (by rw [heq])] at hab
      rw [hya, hyb] at hab
      simpa [Scalar.leB] using hab
    · rw [if_neg (by simpa using heq)] at hab
      have : qb ≤ qa := by simpa [Scalar.leB] using hab
      exact ⟨this, fun h => absurd h heq⟩

/-- C1 witness: the theorem applied at a concrete one-movie store and the
valid parameters `(2000, 2010, ["Drama"], 6)`. -/
theorem movies_filtered_spec_witness :
    (movies_filtered
      [⟨some (.str "T"), some (.num 2005), some (.garr [.str "Drama"]),
        some (.num 8), none⟩] 2000 2010 ["Drama"] 6).length ≤ 1000 :=
  (movies_filtered_spec
    [⟨some (.str "T"), some (.num 2005), some (.garr [.str "Drama"]),
      some (.num 8), none⟩] 2000 2010 ["Drama"] 6 (by decide) (by decide)
    (by decide)).1

theorem coerceAvgRow_num_fst {y : ℚ} {s : Scalar} {n : ℕ} {o : ℚ × ℚ × ℚ}
    (h : coerceAvgRow (.num y, s, n) = some o) : o.1 = y := by
  unfold coerceAvgRow at h
  cases hts : toNumeric s with
  | none => rw [hts] at h; simp [toNumeric] at h
  | some a =>
    rw [hts] at h
    simp only [toNumeric, Option.some.injEq] at h
    rw [← h]

theorem pairwise_filterMap_of_pairwise {α β : Type} (f : α → Option β)
    (R : β → β → Prop) {l : List α}
    (h : l.Pairwise fun a b => ∀ x y, f a = some x → f b = some y → R x y) :
    (l.filterMap f).Pairwise R := by
  induction l with
  | nil => simp
  | cons a as ih =>
    rcases h with _ | ⟨ha, has⟩
    cases hfa : f a with
    | none => simpa [List.filterMap_cons, hfa] using ih has
    | some x =>
      simp only [List.filterMap_cons, hfa]
      refine List.Pairwise.cons ?_ (ih has)
      intro y hy
      obtain ⟨b, hb, hfb⟩ := List.mem_filterMap.mp hy
      exact ha b hb x y hfa hfb

/-- C4: the output of `agg_avg_rating_by_year` is sorted strictly ascending
by year — in particular no year value repeats — and every returned row is
the numeric coercion of a grouped row whose `year` and `avgRating` both
coerce (rows failing that coercion are dropped by the post-aggregation
`dropna`). -/
theorem agg_avg_rating_by_year_spec (movies : List MovieDoc)
    (year_min year_max : ℤ) (genres : List String) (min_r : ℚ) :
    ((agg_avg_rating_by_year movies year_min year_max genres min_r).map
        fun r => r.1).Pairwise (· < ·) ∧
      ∀ r ∈ agg_avg_rating_by_year movies year_min year_max genres min_r,
        ∃ pr ∈ avgPreRows movies year_min year_max genres min_r,
          coerceAvgRow pr = some r := by
  constructor
  · rw [List.pairwise_map]
    unfold agg_avg_rating_by_year
    apply pairwise_filterMap_of_pairwise
    unfold avgPreRows
    rw [List.pairwise_map]
    have hkeys : ∀ k ∈ isortLe Scalar.leB
        (((movies.filter (moviesMatch year_min year_max genres min_r)).map
          fun d => d.year.getD .null).dedup),
        ∃ y : ℚ, k = .num y := by
      intro k hk
      have hk2 := List.mem_dedup.mp (mem_isortLe.mp hk)
      obtain ⟨d, hd, hkd⟩ := List.mem_map.mp hk2
      have hmd := (List.mem_filter.mp hd).2
      obtain ⟨⟨y, hy, _, _⟩, _, _⟩ := moviesMatch_elim hmd
      exact ⟨y, by rw [← hkd, hy]; rfl⟩
    have hsorted := isortLe_pairwise Scalar.leB_total
      (fun a b c h1 h2 => Scalar.leB_trans h1 h2)
      (((movies.filter (moviesMatch year_min year_max genres min_r)).map
        fun d => d.year.getD .null).dedup)
    have hnodup : (isortLe Scalar.leB
        (((movies.filter (moviesMatch year_min year_max genres min_r)).map
          fun d => d.year.getD .null).dedup)).Nodup :=
      ((isortLe_perm _ _).nodup_iff).mpr (List.nodup_dedup _)
    refine (hsorted.and hnodup).imp_of_mem ?_
    intro k1 k2 hk1 hk2 hcomb
    obtain ⟨y1, hy1⟩ := hkeys k1 hk1
    obtain ⟨y2, hy2⟩ := hkeys k2 hk2
    intro o1 o2 ho1 ho2
    rw [hy1] at ho1 hcomb
    rw [hy2] at ho2 hcomb
    rw [coerceAvgRow_num_fst ho1, coerceAvgRow_num_fst ho2]
    have hle : y1 ≤ y2 := by simpa [Scalar.leB] using hcomb.1
    have hne : y1 ≠ y2 := fun h => hcomb.2 (by rw [h])
    exact lt_of_le_of_ne hle hne
  · intro r hr
    exact List.mem_filterMap.mp hr

theorem countDescLeB_total (a b : Scalar × ℕ) :
    countDescLeB a b = true ∨ countDescLeB b a = true := by
  unfold countDescLeB
  rcases Nat.le_total b.2 a.2 with h | h
  · exact Or.inl (decide_eq_true h)
  · exact Or.inr (decide_eq_true h)

theorem countDescLeB_trans (a b c : Scalar × ℕ) (h1 : countDescLeB a b = true)
    (h2 : countDescLeB b c = true) : countDescLeB a c = true :=
  decide_eq_true (Nat.le_trans (of_decide_eq_true h2) (of_decide_eq_true h1))

theorem sum_counts_isort (ex : List Scalar) :
    (((isortLe countDescLeB (ex.dedup.map fun g => (g, ex.count g))).map
        fun r => (r.1, (r.2 : ℚ))).map fun r => r.2).sum = (ex.length : ℚ) := by
  rw [List.map_map]
  have hperm := (isortLe_perm countDescLeB
    (ex.dedup.map fun g => (g, ex.count g))).map
    ((fun r : Scalar × ℚ => r.2) ∘ fun r : Scalar × ℕ => (r.1, (r.2 : ℚ)))
  rw [hperm.sum_eq, List.map_map]
  have hfun : (((fun r : Scalar × ℚ => r.2) ∘
      fun r : Scalar × ℕ => (r.1, (r.2 : ℚ))) ∘ fun g => (g, ex.count g))
      = (fun n : ℕ => (n : ℚ)) ∘ fun g => ex.count g := rfl
  rw [hfun, ← List.map_map, ← Nat.cast_list_sum,
    List.sum_map_count_dedup_eq_length]

theorem pairwise_isort_countDesc (rows : List (Scalar × ℕ)) :
    ((isortLe countDescLeB rows).map fun r => (r.1, (r.2 : ℚ))).Pairwise
      fun a b => b.2 ≤ a.2 := by
  rw [List.pairwise_map]
  exact (isortLe_pairwise countDescLeB_total countDescLeB_trans rows).imp
    fun h => Nat.cast_le.mpr (of_decide_eq_true h)

/-- C5: the counts of `agg_movies_by_genre` sum to the total number of
(document, genre) occurrences passing the filter; that total is the sum over
matching documents of their unwound genre-list lengths (a movie with N
genres contributes N); and the rows are sorted by count descending. -/
theorem agg_movies_by_genre_spec (movies : List MovieDoc)
    (year_min year_max : ℤ) (min_r : ℚ) :
    ((agg_movies_by_genre movies year_min year_max min_r).map fun r => r.2).sum
        = ((explodedGenres movies year_min year_max min_r).length : ℚ) ∧
      ((explodedGenres movies year_min year_max min_r).length : ℚ)
        = (((movies.filter (genreCountMatch year_min year_max min_r)).map
            fun d => ((unwindGenres d).length : ℚ)).sum) ∧
      (agg_movies_by_genre movies year_min year_max min_r).Pairwise
        fun a b => b.2 ≤ a.2 := by
  refine ⟨?_, ?_, ?_⟩
  · exact sum_counts_isort (explodedGenres movies year_min year_max min_r)
  · unfold explodedGenres
    rw [List.length_flatMap, Nat.cast_list_sum, List.map_map]
    rfl
  · exact pairwise_isort_countDesc _

/-- C10: a document whose `genres` field is BSON null fails the
`{genres: {$ne: null}}` half of the `$match` stage of `agg_movies_by_genre`,
so inserting such a document anywhere in the collection leaves the result —
its rows and its counts — unchanged. -/
theorem agg_movies_by_genre_null_excluded (movies movies' : List MovieDoc)
    (t y r c : Option Scalar) (year_min year_max : ℤ) (min_r : ℚ) :
    agg_movies_by_genre (movies ++ ⟨t, y, some .gnull, r, c⟩ :: movies')
        year_min year_max min_r
      = agg_movies_by_genre (movies ++ movies') year_min year_max min_r := by
  have hmatch : genreCountMatch year_min year_max min_r
      ⟨t, y, some .gnull, r, c⟩ = false := by
    simp [genreCountMatch, genresNeNullB]
  unfold agg_movies_by_genre explodedGenres
  rw [List.filter_append, List.filter_append, List.filter_cons_of_neg]
  simp [hmatch]

/-- C7 counterexample: on a store whose single movie carries the genre
"Drama", `list_genres` returns the string "Drama" unchanged and
`agg_movies_by_genre` groups under the key "Drama"; neither query
case-folds to "drama". -/
theorem genre_no_lowercase_counterexample :
    list_genres [⟨some (.str "T"), some (.num 2005),
        some (.garr [.str "Drama"]), some (.num 8), none⟩]
        = [.str "Drama"] ∧
      list_genres [⟨some (.str "T"), some (.num 2005),
        some (.garr [.str "Drama"]), some (.num 8), none⟩]
        ≠ [.str "drama"] ∧
      agg_movies_by_genre [⟨some (.str "T"), some (.num 2005),
        some (.garr [.str "Drama"]), some (.num 8), none⟩] 2000 2010 6
        = [(.str "Drama", 1)] ∧
      Scalar.str "Drama" ≠ Scalar.str "drama" := by
  refine ⟨by decide, by decide, by decide, by decide⟩

/-- C7 amended: no genre case-folding happens anywhere — every value
`list_genres` returns and every grouping key `agg_movies_by_genre` returns
occurs verbatim in some document's unwound `genres` field, and the `genres`
cell of every `movies_filtered` row is the stored field value unchanged. -/
theorem genre_values_preserved (movies : List MovieDoc) (year_min year_max : ℤ)
    (genres : List String) (min_r : ℚ) :
    (∀ g ∈ list_genres movies, ∃ d ∈ movies, g ∈ unwindGenres d) ∧
      (∀ p ∈ agg_movies_by_genre movies year_min year_max min_r,
        ∃ d ∈ movies, p.1 ∈ unwindGenres d) ∧
      (∀ r ∈ movies_filtered movies year_min year_max genres min_r,
        ∃ d ∈ movies, r.genres = d.genres) := by
  refine ⟨?_, ?_, ?_⟩
  · intro g hg
    have := List.mem_dedup.mp (mem_isortLe.mp hg)
    exact List.mem_flatMap.mp this
  · intro p hp
    unfold agg_movies_by_genre at hp
    obtain ⟨r0, hr0, hpr⟩ := List.mem_map.mp hp
    have hr1 := mem_isortLe.mp hr0
    obtain ⟨g, hg, hgr⟩ := List.mem_map.mp hr1
    have hgex := List.mem_dedup.mp hg
    obtain ⟨d, hd, hgd⟩ := List.mem_flatMap.mp hgex
    exact ⟨d, (List.mem_filter.mp hd).1, by rw [← hpr, ← hgr]; exact hgd⟩
  · intro r hr
    obtain ⟨d, hd, _, hrd⟩ := mem_movies_filtered hr
    exact ⟨d, hd, by rw [hrd]; rfl⟩

theorem mem_if_singleton {p : Prop} [Decidable p] {c x : String}
    (h : c ∈ (if p then [x] else [])) : c = x := by
  by_cases hp : p
  · rw [if_pos hp] at h
    simpa using h
  · rw [if_neg hp] at h
    simp at h

theorem movieRowKeys_subset (r : MovieRow) :
    movieRowKeys r ⊆ ["title", "year", "genres", "imdb", "countries"] := by
  unfold movieRowKeys
  intro c hc
  rcases List.mem_append.mp hc with hc | hc
  · rcases List.mem_append.mp hc with hc | hc
    · rcases List.mem_append.mp hc with hc | hc
      · rcases List.mem_append.mp hc with hc | hc
        · rw [mem_if_singleton hc]; simp
        · rw [mem_if_singleton hc]; simp
      · rw [mem_if_singleton hc]; simp
    · rw [mem_if_singleton hc]; simp
  · rw [mem_if_singleton hc]; simp

/-- C8 counterexample: on an empty collection `movies_filtered` returns the
bare `pd.DataFrame()` — zero rows and zero columns — not a table carrying
the query's declared column set {title, year, genres, rating, countries}. -/
theorem fixed_columns_counterexample :
    movies_filtered_cols [] 2000 2025 [] 6 = [] ∧
      movies_filtered [] 2000 2025 [] 6 = [] ∧
      ([] : List String) ≠ ["title", "year", "genres", "rating", "countries"] := by
  refine ⟨by decide, by decide, by decide⟩

/-- C8 amended: a query always returns a table (never null), but its column
set is data-dependent rather than fixed: a zero-row result carries no
columns at all, and otherwise the columns are exactly the keys present in
the returned documents — a subset of {title, year, genres, imdb,
countries}, where the nested `imdb.rating` projection surfaces as the
`imdb` column. -/
theorem movies_filtered_cols_spec (movies : List MovieDoc)
    (year_min year_max : ℤ) (genres : List String) (min_r : ℚ) :
    movies_filtered_cols movies year_min year_max genres min_r ⊆
        ["title", "year", "genres", "imdb", "countries"] ∧
      (movies_filtered movies year_min year_max genres min_r = [] →
        movies_filtered_cols movies year_min year_max genres min_r = []) := by
  constructor
  · intro c hc
    unfold movies_filtered_cols dfCols at hc
    have hc2 := List.mem_dedup.mp hc
    obtain ⟨r, _, hcr⟩ := List.mem_flatMap.mp hc2
    exact movieRowKeys_subset r hcr
  · intro h
    unfold movies_filtered at h
    have h2 := List.map_eq_nil_iff.mp h
    unfold movies_filtered_cols
    rw [h2]
    rfl

/-- C6 counterexample: a store whose only document has the string year
"1800" holds no document with a numeric year, so a computation "only over
documents whose year field is numeric" gives the default (2000, 2025) — as
`years_min_max_specVersion` does — but `years_min_max` matches on mere
existence of `year`, aggregates the string through the BSON order, converts
it with `int(...)` and returns (1800, 1800). -/
theorem years_min_max_counterexample :
    years_min_max [⟨none, some (.str "1800"), none, none, none⟩]
        = (1800, 1800) ∧
      years_min_max_specVersion [⟨none, some (.str "1800"), none, none, none⟩]
        = (2000, 2025) ∧
      years_min_max [⟨none, some (.str "1800"), none, none, none⟩]
        ≠ years_min_max_specVersion
          [⟨none, some (.str "1800"), none, none, none⟩] := by
  refine ⟨by decide, by decide, by decide⟩

theorem yearVals_all_num (movies : List MovieDoc)
    (h : ∀ d ∈ movies, ∀ v, d.year = some v → ∃ q : ℚ, v = .num q) :
    yearVals movies = (numYears movies).map Scalar.num := by
  induction movies with
  | nil => rfl
  | cons d rest ih =>
    have hrest : ∀ d2 ∈ rest, ∀ v, d2.year = some v → ∃ q : ℚ, v = .num q :=
      fun d2 hd2 => h d2 (List.mem_cons_of_mem _ hd2)
    unfold yearVals numYears at ih ⊢
    cases hy : d.year with
    | none =>
      rw [List.filter_cons, List.filterMap_cons]
      simp only [hy, Option.isSome_none]
      simpa [hy] using ih hrest
    | some v =>
      obtain ⟨q, hq⟩ := h d (List.mem_cons_self _ _) v hy
      subst hq
      rw [List.filter_cons, List.filterMap_cons]
      simp only [hy, Option.isSome_some, if_pos]
      rw [List.filterMap_cons]
      simp only [hy, List.map_cons]
      exact congrArg (Scalar.num q :: ·) (ih hrest)

theorem foldl_bsonMin_num (x : ℚ) (xs : List ℚ) :
    (xs.map Scalar.num).foldl
        (fun acc v => if Scalar.leB v acc then v else acc) (Scalar.num x)
      = Scalar.num (xs.foldl min x) := by
  induction xs generalizing x with
  | nil => rfl
  | cons y ys ih =>
    simp only [List.map_cons, List.foldl_cons]
    have hstep : (if Scalar.leB (.num y) (.num x) then Scalar.num y
        else Scalar.num x) = Scalar.num (min x y) := by
      by_cases hyx : y ≤ x
      · rw [if_pos (by simpa [Scalar.leB] using hyx), min_eq_right hyx]
      · rw [if_neg (by simpa [Scalar.leB] using hyx),
          min_eq_left (le_of_not_le hyx)]
    rw [hstep, ih]

theorem foldl_bsonMax_num (x : ℚ) (xs : List ℚ) :
    (xs.map Scalar.num).foldl
        (fun acc v => if Scalar.leB acc v then v else acc) (Scalar.num x)
      = Scalar.num (xs.foldl max x) := by
  induction xs generalizing x with
  | nil => rfl
  | cons y ys ih =>
    simp only [List.map_cons, List.foldl_cons]
    have hstep : (if Scalar.leB (.num x) (.num y) then Scalar.num y
        else Scalar.num x) = Scalar.num (max x y) := by
      by_cases hxy : x ≤ y
      · rw [if_pos (by simpa [Scalar.leB] using hxy), max_eq_right hxy]
      · rw [if_neg (by simpa [Scalar.leB] using hxy),
          max_eq_left (le_of_not_le hxy)]
    rw [hstep, ih]

theorem bsonMinOf_map_num (x : ℚ) (xs : List ℚ) :
    bsonMinOf ((x :: xs).map Scalar.num) = Scalar.num (xs.foldl min x) := by
  unfold bsonMinOf
  have hf : ((x :: xs).map Scalar.num).filter (· ≠ Scalar.null)
      = (x :: xs).map Scalar.num := by
    rw [List.filter_eq_self]
    intro a ha
    obtain ⟨q, _, hq⟩ := List.mem_map.mp ha
    subst hq
    simp
  rw [hf, List.map_cons]
  exact foldl_bsonMin_num x xs

theorem bsonMaxOf_map_num (x : ℚ) (xs : List ℚ) :
    bsonMaxOf ((x :: xs).map Scalar.num) = Scalar.num (xs.foldl max x) := by
  unfold bsonMaxOf
  have hf : ((x :: xs).map Scalar.num).filter (· ≠ Scalar.null)
      = (x :: xs).map Scalar.num := by
    rw [List.filter_eq_self]
    intro a ha
    obtain ⟨q, _, hq⟩ := List.mem_map.mp ha
    subst hq
    simp
  rw [hf, List.map_cons]
  exact foldl_bsonMax_num x xs

/-- C6 amended: `years_min_max` aggregates min and max over every document
whose `year` field merely exists (values of any type, nulls ignored,
cross-type values compared in the BSON order) and substitutes (2000, 2025)
when no such document exists, when min/max come back null, or when
`int(...)` raises; it agrees with the spec's numeric-only computation
exactly on stores where every present `year` value is numeric. -/
theorem years_min_max_all_numeric (movies : List MovieDoc)
    (h : ∀ d ∈ movies, ∀ v, d.year = some v → ∃ q : ℚ, v = .num q) :
    years_min_max movies = years_min_max_specVersion movies := by
  have hys : yearVals movies = (numYears movies).map Scalar.num :=
    yearVals_all_num movies h
  cases hns : numYears movies with
  | nil =>
    have hys2 : yearVals movies = [] := by rw [hys, hns]; rfl
    have hempty : (movies.filter fun d => d.year.isSome) = [] := by
      by_contra hne
      obtain ⟨d, hd⟩ := List.exists_mem_of_ne_nil _ hne
      obtain ⟨v, hv⟩ := Option.isSome_iff_exists.mp (List.mem_filter.mp hd).2
      have hmem : v ∈ yearVals movies := List.mem_filterMap.mpr ⟨d, hd, hv⟩
      rw [hys2] at hmem
      exact absurd hmem (List.not_mem_nil v)
    unfold years_min_max years_min_max_specVersion
    rw [hempty, hns]
    rfl
  | cons q qs =>
    have hne : ((movies.filter fun d => d.year.isSome).isEmpty) = false := by
      rw [List.isEmpty_eq_false_iff_exists_mem]
      by_contra hx
      push_neg at hx
      have : yearVals movies = [] := by
        unfold yearVals
        rw [List.eq_nil_iff_forall_not_mem.mpr hx]
        rfl
      rw [hys, hns] at this
      simp at this
    unfold years_min_max
    rw [hne]
    simp only [Bool.false_eq_true, if_false]
    rw [hys, hns, bsonMinOf_map_num, bsonMaxOf_map_num]
    rw [if_neg (by simp)]
    unfold years_min_max_specVersion
    rw [hns]
    rfl

/-- C6 amended-claim witness: the theorem applied at a concrete store whose
single document has the numeric year 1950. -/
theorem years_min_max_all_numeric_witness :
    years_min_max [⟨none, some (.num 1950), none, none, none⟩]
      = years_min_max_specVersion [⟨none, some (.num 1950), none, none, none⟩] :=
  years_min_max_all_numeric [⟨none, some (.num 1950), none, none, none⟩]
    (by intro d hd v hv
        simp only [List.mem_singleton] at hd
        subst hd
        simp only [Option.some.injEq] at hv
        exact ⟨1950, hv.symm⟩)

/-- C2 counterexample: when the movies aggregation fails, the dashboard call
sites propagate the error — the whole run aborts with it instead of
degrading to empty tables plus a message. -/
theorem dashboard_error_counterexample :
    dashboard_tables (Except.error "QueryError: aggregation failed")
        (Except.ok []) 2000 2010 [] 6
        = Except.error "QueryError: aggregation failed" ∧
      dashboard_tables (Except.error "QueryError: aggregation failed")
          (Except.ok []) 2000 2010 [] 6
        ≠ Except.ok ([], [], [], []) := by
  refine ⟨rfl, fun hcontra => ?_⟩
  exact Except.noConfusion hcontra

/-- C2 amended: no try/except surrounds the query call sites of lines
192-196 — a failing movies aggregation propagates out of the dashboard run
unchanged, aborting every table, instead of being caught and converted to an
empty Result Table plus a surfaced message. -/
theorem dashboard_error_propagates (e : String)
    (commentsFetch : Except String (List CommentDoc)) (year_min year_max : ℤ)
    (genres : List String) (min_r : ℚ) :
    dashboard_tables (Except.error e) commentsFetch year_min year_max genres
      min_r = Except.error e := rfl

/-- C3: calling a cached query twice with the same key within the ttl
window: the first call computes (exactly one store request), the second
returns the stored, bit-identical table with zero store requests and no
recomputation. -/
theorem cache_get_spec {κ α : Type} [DecidableEq κ] (ttl t0 t1 : ℕ) (k : κ)
    (compute : Unit → α) (s0 : CacheState κ α)
    (hmiss : s0.find? (fun e => e.1 = k) = none) (httl : t1 - t0 ≤ ttl) :
    (cache_get ttl t0 k compute s0).1 = compute () ∧
      (cache_get ttl t0 k compute s0).2.2 = 1 ∧
      (cache_get ttl t1 k compute (cache_get ttl t0 k compute s0).2.1).1
        = (cache_get ttl t0 k compute s0).1 ∧
      (cache_get ttl t1 k compute (cache_get ttl t0 k compute s0).2.1).2.2
        = 0 := by
  have h1 : cache_get ttl t0 k compute s0
      = (compute (), (k, compute (), t0) :: s0.filter (fun e2 => e2.1 ≠ k), 1) := by
    unfold cache_get
    rw [hmiss]
  have hfind : ((k, compute (), t0) ::
      s0.filter fun e2 => e2.1 ≠ k).find? (fun e => e.1 = k)
      = some (k, compute (), t0) :=
    List.find?_cons_of_pos _ (by simp)
  have h2 : cache_get ttl t1 k compute
      ((k, compute (), t0) :: s0.filter fun e2 => e2.1 ≠ k)
      = (compute (), (k, compute (), t0) :: s0.filter (fun e2 => e2.1 ≠ k), 0) := by
    unfold cache_get
    simp only [hfind]
    rw [if_pos httl]
  rw [h1, h2]
  exact ⟨rfl, rfl, rfl, rfl⟩

/-- C3 witness: a concrete double call (ℕ keys, table 42, ttl 60, call times
0 and 30) applying the theorem with its hypotheses discharged. -/
theorem cache_get_spec_witness :
    (cache_get 60 30 (1 : ℕ) (fun _ => (42 : ℕ))
      (cache_get 60 0 (1 : ℕ) (fun _ => (42 : ℕ)) []).2.1).2.2 = 0 :=
  (cache_get_spec 60 0 30 1 (fun _ => 42) [] rfl (by decide)).2.2.2

/-- C9 counterexample: the KPI block computes exactly the three metrics
"Movies (filtered)", "Genres w/ matches" and "Comments (all time)"; none of
the four count queries the claim names exists — in particular there is no
`countUsers` and no `countDistinctDirectors` (and hence no case-insensitive
director distinctness anywhere: `app.py` never touches `directors`). -/
theorem kpi_metrics_counterexample :
    ((kpi_metrics [] [] []).map fun m => m.1)
        = ["Movies (filtered)", "Genres w/ matches", "Comments (all time)"] ∧
      "countMovies" ∉ (kpi_metrics [] [] []).map (fun m => m.1) ∧
      "countComments" ∉ (kpi_metrics [] [] []).map (fun m => m.1) ∧
      "countUsers" ∉ (kpi_metrics [] [] []).map (fun m => m.1) ∧
      "countDistinctDirectors" ∉ (kpi_metrics [] [] []).map (fun m => m.1) := by
  refine ⟨by decide, by decide, by decide, by decide, by decide⟩

theorem movies_filtered_length (movies : List MovieDoc) (year_min year_max : ℤ)
    (genres : List String) (min_r : ℚ) :
    (movies_filtered movies year_min year_max genres min_r).length
      = min 1000 (movies.countP (moviesMatch year_min year_max genres min_r)) := by
  unfold movies_filtered
  simp only [List.length_map, List.length_take]
  rw [(isortLe_perm movieSortLeB _).length_eq,
    ← List.countP_eq_length_filter]

theorem agg_movies_by_genre_length (movies : List MovieDoc)
    (year_min year_max : ℤ) (min_r : ℚ) :
    (agg_movies_by_genre movies year_min year_max min_r).length
      = (explodedGenres movies year_min year_max min_r).dedup.length := by
  unfold agg_movies_by_genre
  simp only [List.length_map]
  rw [(isortLe_perm _ _).length_eq, List.length_map]

theorem sum_counts_intKeys (ds : List ℤ) :
    (((isortLe (fun a b : ℤ => decide (a ≤ b)) ds.dedup).map
        fun k => (k, (ds.count k : ℚ))).map fun r => r.2).sum
      = (ds.length : ℚ) := by
  rw [List.map_map]
  have hperm := (isortLe_perm (fun a b : ℤ => decide (a ≤ b)) ds.dedup).map
    ((fun r : ℤ × ℚ => r.2) ∘ fun k => (k, (ds.count k : ℚ)))
  rw [hperm.sum_eq]
  have hfun : ((fun r : ℤ × ℚ => r.2) ∘ fun k => (k, (ds.count k : ℚ)))
      = (fun n : ℕ => (n : ℚ)) ∘ fun k => ds.count k := rfl
  rw [hfun, ← List.map_map, ← Nat.cast_list_sum,
    List.sum_map_count_dedup_eq_length]

theorem comments_over_time_sum (comments : List CommentDoc) :
    ((comments_over_time comments).map fun r => r.2).sum
      = ((comments.filterMap fun c =>
          match c.date with
          | some (.dt t) => some (dayTrunc t)
          | _ => none).length : ℚ) := by
  unfold comments_over_time
  exact sum_counts_intKeys _

theorem comments_over_time_eq_nil (comments : List CommentDoc) :
    comments_over_time comments = [] ↔
      (comments.filterMap fun c =>
        match c.date with
        | some (.dt t) => some (dayTrunc t)
        | _ => none) = [] := by
  unfold comments_over_time
  constructor
  · intro h
    have h2 := List.map_eq_nil_iff.mp h
    have h3 := isortLe_perm (fun a b : ℤ => decide (a ≤ b))
      (comments.filterMap fun c =>
        match c.date with
        | some (.dt t) => some (dayTrunc t)
        | _ => none).dedup
    rw [h2] at h3
    exact (List.dedup_eq_nil _).mp h3.symm.eq_nil
  · intro h
    rw [h]
    rfl

theorem pyTrunc_natCast (n : ℕ) : pyTrunc ((n : ℚ)) = (n : ℤ) := by
  unfold pyTrunc
  rw [if_pos (by positivity)]
  exact Int.floor_natCast n

/-- C9 amended: the KPI block computes exactly three integer metrics:
"Movies (filtered)" is `min(1000, number of matching movie documents)`,
"Genres w/ matches" is the number of distinct genre keys among the exploded
matching (document, genre) occurrences, and "Comments (all time)" is the
number of comment documents carrying a date-typed `date` field. -/
theorem kpi_metrics_values (movies : List MovieDoc) (comments : List CommentDoc)
    (year_min year_max : ℤ) (genres : List String) (min_r : ℚ) :
    kpi_metrics (movies_filtered movies year_min year_max genres min_r)
        (agg_movies_by_genre movies year_min year_max min_r)
        (comments_over_time comments)
      = [("Movies (filtered)",
            ((min 1000 (movies.countP
              (moviesMatch year_min year_max genres min_r)) : ℕ) : ℤ)),
          ("Genres w/ matches",
            ((explodedGenres movies year_min year_max min_r).dedup.length : ℤ)),
          ("Comments (all time)",
            ((comments.filterMap fun c =>
              match c.date with
              | some (.dt t) => some (dayTrunc t)
              | _ => none).length : ℤ))] := by
  unfold kpi_metrics
  rw [movies_filtered_length, agg_movies_by_genre_length]
  by_cases hemp : comments_over_time comments = []
  · rw [if_pos (by rw [hemp]; rfl)]
    have hds := (comments_over_time_eq_nil comments).mp hemp
    rw [hds]
    rfl
  · rw [if_neg (by
      intro hx
      exact hemp (List.isEmpty_iff.mp hx))]
    rw [comments_over_time_sum, pyTrunc_natCast]
